import Mathlib

/-!
Shallow embedding of the dox-cli PDF extraction scripts
(`scripts/pdf_extract.py` and `scripts/pdf_extract_coords.py`).

Python floats are modelled by `ℚ` (the arithmetic in the source is simple
enough that no rounding subtleties arise in the scored formulas), Python
strings by `String`, and a table cell (which pdfplumber may return as
`None`) by `Option String`.  Dictionaries produced by the scripts are
modelled by structures carrying the fields the algorithms read.  External
pdfplumber calls (`page.find_tables`, `table.extract`, `page.chars`) are
the inputs of the embedded functions.
-/

namespace Dox

/-- A raw extracted table grid: rows of cells, a cell being `None` or a
string (`pdfplumber`'s `Table.extract()` output). -/
abbrev Grid := List (List (Option String))

/-- Python's `cell and str(cell).strip()` truthiness test used throughout
both scripts: a cell counts as non-empty when it is a string whose
stripped form is non-empty. -/
def cellNonEmpty : Option String → Bool
  | none => false
  | some s => !(s.trim == "")

/-- Number of non-empty cells of a grid, as counted by
`sum(1 for row in ... for cell in row if cell and str(cell).strip())`. -/
def countNonEmpty (g : Grid) : ℕ :=
  (g.map (fun row => row.countP cellNonEmpty)).sum

/-- Number of cells actually present in the grid (sum of row lengths),
as counted by the nested loop in `assess_table_quality`. -/
def cellCount (g : Grid) : ℕ :=
  (g.map List.length).sum

namespace PdfExtract

/-- `total_cells = len(extracted) * len(extracted[0])` from
`PDFExtractor.extract_tables` (0 for the empty grid). -/
def totalCells (g : Grid) : ℕ := g.length * (g.headD []).length

/-- `fill_ratio = non_empty_cells / total_cells` from
`PDFExtractor.extract_tables`. -/
def fill_ratio (g : Grid) : ℚ := (countNonEmpty g : ℚ) / (totalCells g : ℚ)

/-- `score = fill_ratio * total_cells`: the per-candidate score in
`PDFExtractor.extract_tables`. -/
def candScore (g : Grid) : ℚ := fill_ratio g * (totalCells g : ℚ)

/-- The candidates a strategy retains in `current_tables`: exactly those
whose extracted grid is non-empty and has `total_cells > 0`. -/
def validCands (gs : List Grid) : List Grid :=
  gs.filter (fun g => decide (0 < totalCells g))

/-- `current_score`: the summed score of one strategy's retained
candidates. -/
def stratScore (gs : List Grid) : ℚ :=
  ((validCands gs).map candScore).sum

/-- One iteration of the best-strategy loop: the running best
`(best_score, best_tables)` is replaced only on strict improvement
(`current_score > best_score`). -/
def bestStep (best : ℚ × List Grid) (gs : List Grid) : ℚ × List Grid :=
  if best.1 < stratScore gs then (stratScore gs, validCands gs) else best

/-- The best-of selection loop of `PDFExtractor.extract_tables`, starting
from `best_score = 0`, `best_tables = []`.  A strategy whose
`page.find_tables` call raises is caught and skipped; it is represented
here by its (empty) list of successfully extracted grids. -/
def bestTables (strats : List (List Grid)) : ℚ × List Grid :=
  strats.foldl bestStep (0, [])

/-- Cell normalisation of `PDFExtractor.clean_table`: `None` becomes the
empty string, other cells are stripped. -/
def cleanCell : Option String → String
  | none => ""
  | some s => s.trim

/-- `PDFExtractor.clean_table`: normalise every cell, then drop rows in
which every cell is empty. -/
def clean_table (g : Grid) : List (List String) :=
  (g.map (fun row => row.map cleanCell)).filter
    (fun row => row.any (fun c => !(c == "")))

/-- The grids of the tables `PDFExtractor.extract_tables` emits for a
page: the winning strategy's candidates, cleaned, with candidates whose
cleaned grid is empty discarded.  (The surrounding `index`, `rows`,
`cols` and `position` bookkeeping of the emitted dict is pass-through
metadata and not modelled.) -/
def extract_tables (strats : List (List Grid)) : List (List (List String)) :=
  (((bestTables strats).2).map clean_table).filter (fun t => !t.isEmpty)

end PdfExtract

namespace Coords

/-- One positioned character from `page.chars`. -/
structure Glyph where
  text : String
  x0 : ℚ
  x1 : ℚ
  top : ℚ
  height : ℚ
  deriving DecidableEq, Repr

/-- Python's built-in `round` (banker's rounding: halves go to the even
neighbour), used in the sort key of `group_text_by_lines`. -/
def pyRound (q : ℚ) : ℤ :=
  if q - (⌊q⌋ : ℚ) = 1 / 2 then (if ⌊q⌋ % 2 = 0 then ⌊q⌋ else ⌊q⌋ + 1)
  else round q

/-- The sort key `(round(c['top']), c['x0'])` of `group_text_by_lines`,
compared lexicographically (Python tuple order). -/
def keyLe (a b : Glyph) : Prop :=
  pyRound a.top < pyRound b.top ∨
    (pyRound a.top = pyRound b.top ∧ a.x0 ≤ b.x0)

instance : DecidableRel keyLe := fun a b => by
  unfold keyLe
  exact inferInstance

instance : IsTotal Glyph keyLe := by
  constructor
  intro a b
  unfold keyLe
  rcases lt_trichotomy (pyRound a.top) (pyRound b.top) with h | h | h
  · exact Or.inl (Or.inl h)
  · rcases le_total a.x0 b.x0 with hx | hx
    · exact Or.inl (Or.inr ⟨h, hx⟩)
    · exact Or.inr (Or.inr ⟨h.symm, hx⟩)
  · exact Or.inr (Or.inl h)

instance : IsTrans Glyph keyLe := by
  constructor
  intro a b c hab hbc
  unfold keyLe at *
  rcases hab with h1 | ⟨h1, hx1⟩
  · rcases hbc with h2 | ⟨h2, _⟩
    · exact Or.inl (h1.trans h2)
    · exact Or.inl (h2 ▸ h1)
  · rcases hbc with h2 | ⟨h2, hx2⟩
    · exact Or.inl (h1 ▸ h2)
    · exact Or.inr ⟨h1.trans h2, hx1.trans hx2⟩

/-- The running line record of `group_text_by_lines` (`current_line`). -/
structure Line where
  y : ℚ
  x_min : ℚ
  x_max : ℚ
  height : ℚ
  chars : List Glyph
  text : String
  deriving DecidableEq, Repr

/-- Opening a new line from a glyph (the `current_line = {...}` branch). -/
def newLine (g : Glyph) : Line :=
  { y := g.top, x_min := g.x0, x_max := g.x1, height := g.height
    chars := [g], text := g.text }

/-- Adding a glyph to the open line (the `else` branch): the anchor `y`
is left untouched. -/
def addTo (l : Line) (g : Glyph) : Line :=
  { l with
      chars := l.chars ++ [g]
      text := l.text ++ g.text
      x_min := min l.x_min g.x0
      x_max := max l.x_max g.x1 }

/-- The walk over the sorted glyphs with an open line: a glyph joins the
open line when `abs(y - current_line['y']) <= 2` (`y_tolerance = 2`),
otherwise the open line is closed and a new one opens. -/
def groupAux (cur : Line) : List Glyph → List Line
  | [] => [cur]
  | g :: rest =>
      if 2 < |g.top - cur.y| then cur :: groupAux (newLine g) rest
      else groupAux (addTo cur g) rest

/-- `CoordinateBasedExtractor.group_text_by_lines`: sort the glyphs by
`(round(top), x0)` (Python's `sorted` is stable; so is
`List.insertionSort`) and walk them grouping by the 2-unit tolerance.
Empty input yields the empty list. -/
def group_text_by_lines (chars : List Glyph) : List Line :=
  match List.insertionSort keyLe chars with
  | [] => []
  | g :: rest => groupAux (newLine g) rest

/-- `CoordinateBasedExtractor.is_heading`: marker glyph, page-marker
bracket pattern, or short roughly-centred text.  `page_center` falls back
to `300` when `page.width` is falsy (modelled as `0`). -/
def is_heading (text : String) (line : Line) (pageWidth : ℚ) : Bool :=
  if text.startsWith "▢" || text.startsWith "■" then true
  else if text.startsWith "- " && text.endsWith " -" && decide (text.length < 10) then true
  else if decide (text.length < 50) &&
      (let pageCenter := if pageWidth = 0 then (300 : ℚ) else pageWidth / 2
       let lineCenter := (line.x_min + line.x_max) / 2
       decide (|lineCenter - pageCenter| < 50)) then true
  else false

/-- `CoordinateBasedExtractor.get_heading_level`.  The source also takes
the line record but never reads it; note that the `"- "`/`" -"` branch
repeats no length check. -/
def get_heading_level (text : String) : ℕ :=
  if text.startsWith "▢" || text.startsWith "■" then 1
  else if text.startsWith "- " && text.endsWith " -" then 3
  else 2

/-- The fixed list-marker set of `is_list_item` / `get_list_marker`. -/
def listMarkers : List String := ["○", "●", "▪", "▫", "◦", "•", "-", "*"]

/-- `CoordinateBasedExtractor.is_list_item`. -/
def is_list_item (text : String) : Bool :=
  listMarkers.any (fun m => text.startsWith (m ++ " ") || text == m)

/-- `CoordinateBasedExtractor.get_list_marker`: first marker the text
starts with, else the empty string. -/
def get_list_marker (text : String) : String :=
  match listMarkers.find? (fun m => text.startsWith m) with
  | some m => m
  | none => ""

/-- `CoordinateBasedExtractor.is_table_row`: true when more than one line
of the page sits within `< 2` vertical units of this line's anchor (the
line itself always qualifies). -/
def is_table_row (line : Line) (allLines : List Line) : Bool :=
  decide (1 < (allLines.filter (fun l => decide (|l.y - line.y| < 2))).length)

/-- One structured element produced by `detect_structure`
(type, content, bbox, optional heading level, optional list marker). -/
structure Element where
  type : String
  content : String
  x : ℚ
  y : ℚ
  width : ℚ
  height : ℚ
  level : Option ℕ
  marker : Option String
  deriving DecidableEq, Repr

/-- The per-line body of `detect_structure`: build the default text
element, then reclassify by the first matching rule
(heading / list item / table row). -/
def classify_line (text : String) (line : Line) (allLines : List Line)
    (pageWidth : ℚ) : Element :=
  let base : Element :=
    { type := "text", content := text, x := line.x_min, y := line.y
      width := line.x_max - line.x_min, height := line.height
      level := none, marker := none }
  if is_heading text line pageWidth then
    { base with type := "heading", level := some (get_heading_level text) }
  else if is_list_item text then
    { base with type := "list_item", marker := some (get_list_marker text) }
  else if is_table_row line allLines then
    { base with type := "table_row" }
  else base

/-- `CoordinateBasedExtractor.detect_structure`: classify every line
whose stripped text is non-empty, in order. -/
def detect_structure (lines : List Line) (pageWidth : ℚ) : List Element :=
  lines.filterMap (fun l =>
    let text := l.text.trim
    if text = "" then none else some (classify_line text l lines pageWidth))

/-- A raw table candidate as seen by `extract_tables_with_coords`: the
extracted grid plus the `table.bbox` 4-tuple `(x0, y0, x1, y1)`. -/
structure RawTable where
  data : Grid
  x0 : ℚ
  y0 : ℚ
  x1 : ℚ
  y1 : ℚ
  deriving DecidableEq, Repr

/-- The accepted `table_data` dict built by `extract_tables_with_coords`. -/
structure TableData where
  data : Grid
  rows : ℕ
  cols : ℕ
  x : ℚ
  y : ℚ
  width : ℚ
  height : ℚ
  deriving DecidableEq, Repr

/-- Building the `table_data` dict from a raw candidate. -/
def mkTableData (t : RawTable) : TableData :=
  { data := t.data, rows := t.data.length, cols := (t.data.headD []).length
    x := t.x0, y := t.y0, width := t.x1 - t.x0, height := t.y1 - t.y0 }

/-- The duplicate test of `extract_tables_with_coords`: some already
accepted table's bbox top-left corner is within 10 units on both axes. -/
def isDup (acc : List TableData) (t : RawTable) : Bool :=
  acc.any (fun e => decide (|e.x - t.x0| < 10) && decide (|e.y - t.y0| < 10))

/-- Processing one candidate in `extract_tables_with_coords`: skipped when
its grid is empty, has no non-empty cell, or duplicates an accepted
table; otherwise appended. -/
def addTable (acc : List TableData) (t : RawTable) : List TableData :=
  if t.data.isEmpty then acc
  else if countNonEmpty t.data = 0 then acc
  else if isDup acc t then acc
  else acc ++ [mkTableData t]

/-- `CoordinateBasedExtractor.extract_tables_with_coords`: run every
strategy (a strategy whose pdfplumber calls raise is caught and skipped;
it is represented by its list of successfully extracted candidates,
empty when it failed at once), accumulating accepted tables across
strategies. -/
def extract_tables_with_coords (strats : List (List RawTable)) : List TableData :=
  strats.foldl (fun acc ts => ts.foldl addTable acc) []

/-- One page of the per-document result dict: its structured elements and
its accepted tables (`layout` and `number` are score-irrelevant). -/
structure Page where
  elements : List Element
  tables : List TableData
  deriving DecidableEq, Repr

/-- `CoordinateBasedExtractor.assess_table_quality`: fill ratio scaled by
`0.7 + 0.3 * min(1, rows*cols/10)`; empty data or zero cells score 0. -/
def assess_table_quality (t : TableData) : ℚ :=
  if t.data.isEmpty then 0
  else if cellCount t.data = 0 then 0
  else ((countNonEmpty t.data : ℚ) / (cellCount t.data : ℚ)) *
    (0.7 + 0.3 * min 1 (((t.rows * t.cols : ℕ) : ℚ) / 10))

/-- The closed-form per-table score `fill * (0.7 + 0.3 * min(1, cells/10))`
with `cells = rows * cols`, for stating facts about
`assess_table_quality`. -/
def tableQualityFormula (fill : ℚ) (cells : ℕ) : ℚ :=
  fill * (0.7 + 0.3 * min 1 ((cells : ℚ) / 10))

/-- `total_chars` of `assess_text_quality`: summed stripped lengths of the
non-empty element contents of every page. -/
def totalContentChars (doc : List Page) : ℕ :=
  (doc.map (fun p =>
    (p.elements.map (fun e => e.content.trim.length)).sum)).sum

/-- Meaningful elements of one page: content longer than 2 characters
after stripping. -/
def meaningfulOnPage (p : Page) : ℕ :=
  p.elements.countP (fun e => decide (2 < e.content.trim.length))

/-- `meaningful_elements` of `assess_text_quality`, totalled over the
document. -/
def meaningfulCount (doc : List Page) : ℕ :=
  (doc.map meaningfulOnPage).sum

/-- `CoordinateBasedExtractor.assess_text_quality`: char-density score
weighted 0.6 plus meaningful-element score weighted 0.4, with early
zero returns for empty content or zero pages. -/
def assess_text_quality (doc : List Page) : ℚ :=
  if totalContentChars doc = 0 then 0
  else if doc.length = 0 then 0
  else
    let avgCharsPerPage : ℚ := (totalContentChars doc : ℚ) / (doc.length : ℚ)
    let charScore : ℚ := min 1 (avgCharsPerPage / 100)
    let elementScore : ℚ := min 1 ((meaningfulCount doc : ℚ) / ((doc.length : ℚ) * 5))
    charScore * 0.6 + elementScore * 0.4

/-- Heading count of `assess_structure_quality`. -/
def headingCount (doc : List Page) : ℕ :=
  (doc.map (fun p => p.elements.countP (fun e => e.type == "heading"))).sum

/-- List-item count of `assess_structure_quality`. -/
def listItemCount (doc : List Page) : ℕ :=
  (doc.map (fun p => p.elements.countP (fun e => e.type == "list_item"))).sum

/-- The accepted tables of the whole document, in page order. -/
def allTables (doc : List Page) : List TableData :=
  doc.foldr (fun p acc => p.tables ++ acc) []

/-- `table_count` as accumulated by `assess_quality` /
`assess_structure_quality`. -/
def tableCount (doc : List Page) : ℕ := (allTables doc).length

/-- `CoordinateBasedExtractor.assess_structure_quality`: 0.4 for any
heading, plus 0.3 for any list item, plus 0.3 for any table. -/
def assess_structure_quality (doc : List Page) : ℚ :=
  (if 0 < headingCount doc then (0.4 : ℚ) else 0) +
    (if 0 < listItemCount doc then (0.3 : ℚ) else 0) +
    (if 0 < tableCount doc then (0.3 : ℚ) else 0)

/-- `table_quality_sum` of `assess_quality`. -/
def tableQualitySum (doc : List Page) : ℚ :=
  ((allTables doc).map assess_table_quality).sum

/-- `avg_table_quality` of `assess_quality`. -/
def avgTableQuality (doc : List Page) : ℚ :=
  tableQualitySum doc / (tableCount doc : ℚ)

/-- `total_score` as accumulated by `assess_quality`: the table term is
added only when at least one table exists. -/
def qualityTotalScore (doc : List Page) : ℚ :=
  (if 0 < tableCount doc then avgTableQuality doc * 0.5 else 0) +
    assess_text_quality doc * 0.3 + assess_structure_quality doc * 0.2

/-- `sum(score_weights)` of `assess_quality`: the 0.5 table weight enters
only when at least one table exists. -/
def qualityWeightSum (doc : List Page) : ℚ :=
  (if 0 < tableCount doc then (0.5 : ℚ) else 0) + 0.3 + 0.2

/-- `CoordinateBasedExtractor.assess_quality`: weighted sum of the three
sub-scores divided by the sum of the weights actually applied. -/
def assess_quality (doc : List Page) : ℚ :=
  if 0 < qualityWeightSum doc then qualityTotalScore doc / qualityWeightSum doc
  else 0

/-- The threshold message `f"Quality too low: {score} (minimum: {min})"`
(the Python two-decimal float rendering is simplified to `toString`; the
exit-code logic only inspects the fixed prefix). -/
def qualityErrorMsg (score minQuality : ℚ) : String :=
  "Quality too low: " ++ toString score ++ " (minimum: " ++ toString minQuality ++ ")"

/-- The fields of the result dict of `CoordinateBasedExtractor.extract`
that the quality gate and `main` read. -/
structure ExtractResult where
  success : Bool
  error : Option String
  quality : Option ℚ
  warnings : List String
  errors : List String
  deriving DecidableEq, Repr

/-- `CoordinateBasedExtractor.extract` at the quality gate: the parse
outcome is the external `pdfplumber.open`/page-walk boundary (`Except`
message = `str(e)` of the caught exception, after which `quality` is
still `None`).  On success the overall score is computed and checked
against `min_quality`; `strict` decides failure versus warning.  Only
the gate's report strings are modelled. -/
def extract (minQuality : ℚ) (strict : Bool)
    (parsed : Except String (List Page)) : ExtractResult :=
  match parsed with
  | Except.error e =>
      { success := false, error := some e, quality := none
        warnings := [], errors := [] }
  | Except.ok doc =>
      let score := assess_quality doc
      if score < minQuality then
        if strict then
          { success := false, error := some (qualityErrorMsg score minQuality)
            quality := some score, warnings := []
            errors := [qualityErrorMsg score minQuality] }
        else
          { success := true, error := none, quality := some score
            warnings := [qualityErrorMsg score minQuality], errors := [] }
      else
        { success := true, error := none, quality := some score
          warnings := [], errors := [] }

/-- Python's substring test `needle in haystack` on character lists:
the needle is a prefix of some suffix of the haystack. -/
def containsSeq (pat : List Char) : List Char → Bool
  | [] => pat.isEmpty
  | c :: rest => pat.isPrefixOf (c :: rest) || containsSeq pat rest

/-- Python `"quality too low" in s.lower()`. -/
def containsQualityTooLow (s : String) : Bool :=
  containsSeq ("quality too low".data) (s.data.map Char.toLower)

/-- The exit-code determination of `main` in `pdf_extract_coords.py`:
effective threshold and strictness are zeroed by `--ignore-quality`;
a failed result exits 3 when its error message mentions the quality
gate and 1 otherwise; a successful result with a below-threshold score
exits 2 unless quality is ignored; otherwise 0. -/
def main_exit_code (strict : Bool) (minQuality : ℚ) (ignoreQuality : Bool)
    (parsed : Except String (List Page)) : ℕ :=
  let minQ : ℚ := if ignoreQuality then 0 else minQuality
  let strict' : Bool := if ignoreQuality then false else strict
  let result := extract minQ strict' parsed
  if result.success = false then
    if containsQualityTooLow (result.error.getD "") then 3 else 1
  else
    match result.quality with
    | some score => if score < minQ && !ignoreQuality then 2 else 0
    | none => 0

end Coords

/-- Rectangularity of a grid: every row as long as the first. -/
def isRectangular {α : Type} (g : List (List α)) : Prop :=
  ∀ row ∈ g, row.length = (g.headD []).length

instance {α : Type} [DecidableEq α] (g : List (List α)) :
    Decidable (isRectangular g) := by
  unfold isRectangular
  exact inferInstance

/-- Text quality as claim C2 words it (spec reading): 0.6 times the
char-density score plus 0.4 times the fraction of pages reaching at
least 5 meaningful elements, capped at 1. -/
def specTextQuality (doc : List Coords.Page) : ℚ :=
  0.6 * min 1 (((Coords.totalContentChars doc : ℚ) / (doc.length : ℚ)) / 100) +
    0.4 * min 1
      (((doc.countP (fun p => decide (5 ≤ Coords.meaningfulOnPage p))) : ℚ) /
        (doc.length : ℚ))

/-- Scenario grid of spec §8 (C): the 2×2 table `[["A","B"],["","D"]]`. -/
def c8Example : Coords.TableData :=
  { data := [[some "A", some "B"], [some "", some "D"]], rows := 2, cols := 2
    x := 0, y := 0, width := 1, height := 1 }

/-- A plain text element with the given content. -/
def textElem (s : String) : Coords.Element :=
  { type := "text", content := s, x := 0, y := 0, width := 0, height := 0
    level := none, marker := none }

/-- A two-page document whose meaningful elements all sit on page one:
10 three-character elements, then an empty page. -/
def c2Doc : List Coords.Page :=
  [{ elements := List.replicate 10 (textElem "abc"), tables := [] },
   { elements := [], tables := [] }]

/-- A one-page document holding a single accepted table. -/
def c1DocTables : List Coords.Page :=
  [{ elements := [], tables := [c8Example] }]

/-- A one-grid strategy candidate list: a single 1×1 grid holding "A". -/
def c3Strategy : List Grid := [[[some "A"]]]

/-- The dedup separation property: bbox top-left corners are not within
10 units on both axes. -/
abbrev tdSep (a b : Coords.TableData) : Prop :=
  ¬(|a.x - b.x| < 10 ∧ |a.y - b.y| < 10)

/-- The anchor-gap relation between lines produced in order by the
grouper: the later anchor exceeds the earlier by more than the 2-unit
tolerance. -/
def lineGap (a b : Coords.Line) : Prop := a.y + 2 < b.y

instance : IsTrans Coords.Line lineGap :=
  ⟨fun a b c h1 h2 => by
    unfold lineGap at *
    linarith⟩

/-- Invariant of every line the grouper builds: its anchor is its first
glyph's top coordinate, and every member glyph is within 2 units of the
anchor. -/
def lineInv (l : Coords.Line) : Prop :=
  (∃ g0 t, l.chars = g0 :: t ∧ l.y = g0.top) ∧ ∀ g ∈ l.chars, |g.top - l.y| ≤ 2

/-- Two glyphs on the same rounded row band (tops 100 and 100.5). -/
def c5GlyphA : Coords.Glyph := { text := "a", x0 := 5, x1 := 6, top := 100, height := 10 }

/-- Companion glyph of `c5GlyphA`, half a unit lower. -/
def c5GlyphB : Coords.Glyph := { text := "b", x0 := 7, x1 := 8, top := 100.5, height := 10 }

/-- The two-glyph page used to exercise the grouper. -/
def c5Chars : List Coords.Glyph := [c5GlyphA, c5GlyphB]

/-- The single line the grouper builds from `c5Chars`. -/
def c5Line : Coords.Line :=
  { y := 100, x_min := 5, x_max := 8, height := 10
    chars := [c5GlyphA, c5GlyphB], text := "ab" }

/-- The single element the classifier produces from `c5Chars` on a
600-unit-wide page. -/
def c10Elem : Coords.Element :=
  { type := "text", content := "ab", x := 5, y := 100, width := 3, height := 10
    level := none, marker := none }

/-- A ragged raw candidate: row lengths 1 and 2. -/
def c6Raw : Coords.RawTable :=
  { data := [[some "A"], [some "B", some "C"]], x0 := 0, y0 := 0, x1 := 5, y1 := 5 }

/-- A 1×1 raw candidate holding "Z". -/
def c9Raw : Coords.RawTable :=
  { data := [[some "Z"]], x0 := 4, y0 := 9, x1 := 6, y1 := 12 }

/-- A line whose text is the 10-character page marker `"- 123456 -"`,
roughly centred on a width-30 page. -/
def c4Line : Coords.Line :=
  { y := 0, x_min := 0, x_max := 20, height := 10, chars := [], text := "- 123456 -" }

end Dox

open Dox

lemma countNonEmpty_le_cellCount (g : Grid) : countNonEmpty g ≤ cellCount g := by
  unfold countNonEmpty cellCount
  exact List.sum_le_sum (fun row _ => List.countP_le_length _)

lemma table_quality_nonneg (t : Coords.TableData) :
    0 ≤ Coords.assess_table_quality t := by
  unfold Coords.assess_table_quality
  split_ifs with h1 h2
  · exact le_refl 0
  · exact le_refl 0
  · have hmin : (0 : ℚ) ≤ min 1 (((t.rows * t.cols : ℕ) : ℚ) / 10) :=
      le_min (by norm_num) (by positivity)
    have hfill : (0 : ℚ) ≤ (countNonEmpty t.data : ℚ) / (cellCount t.data : ℚ) := by
      positivity
    nlinarith

lemma table_quality_le_one (t : Coords.TableData) :
    Coords.assess_table_quality t ≤ 1 := by
  unfold Coords.assess_table_quality
  split_ifs with h1 h2
  · norm_num
  · norm_num
  · have hcc : (0 : ℚ) < (cellCount t.data : ℚ) := by
      have := Nat.pos_of_ne_zero h2
      exact_mod_cast this
    have hfill : (countNonEmpty t.data : ℚ) / (cellCount t.data : ℚ) ≤ 1 := by
      rw [div_le_one hcc]
      exact_mod_cast countNonEmpty_le_cellCount t.data
    have hfill0 : (0 : ℚ) ≤ (countNonEmpty t.data : ℚ) / (cellCount t.data : ℚ) := by
      positivity
    have hmin1 : min 1 (((t.rows * t.cols : ℕ) : ℚ) / 10) ≤ 1 := min_le_left _ _
    have hmin0 : (0 : ℚ) ≤ min 1 (((t.rows * t.cols : ℕ) : ℚ) / 10) :=
      le_min (by norm_num) (by positivity)
    nlinarith

lemma text_quality_nonneg (doc : List Coords.Page) :
    0 ≤ Coords.assess_text_quality doc := by
  unfold Coords.assess_text_quality
  split_ifs
  · exact le_refl 0
  · exact le_refl 0
  · have h1 : (0 : ℚ) ≤
        min 1 ((Coords.totalContentChars doc : ℚ) / (doc.length : ℚ) / 100) :=
      le_min (by norm_num) (by positivity)
    have h2 : (0 : ℚ) ≤
        min 1 ((Coords.meaningfulCount doc : ℚ) / ((doc.length : ℚ) * 5)) :=
      le_min (by norm_num) (by positivity)
    nlinarith

lemma text_quality_le_one (doc : List Coords.Page) :
    Coords.assess_text_quality doc ≤ 1 := by
  unfold Coords.assess_text_quality
  split_ifs
  · norm_num
  · norm_num
  · have h1 : min 1 ((Coords.totalContentChars doc : ℚ) / (doc.length : ℚ) / 100) ≤ 1 :=
      min_le_left _ _
    have h2 : min 1 ((Coords.meaningfulCount doc : ℚ) / ((doc.length : ℚ) * 5)) ≤ 1 :=
      min_le_left _ _
    nlinarith

lemma structure_quality_nonneg (doc : List Coords.Page) :
    0 ≤ Coords.assess_structure_quality doc := by
  unfold Coords.assess_structure_quality
  split_ifs <;> norm_num

lemma structure_quality_le_one (doc : List Coords.Page) :
    Coords.assess_structure_quality doc ≤ 1 := by
  unfold Coords.assess_structure_quality
  split_ifs <;> norm_num

lemma tableQualitySum_nonneg (doc : List Coords.Page) :
    0 ≤ Coords.tableQualitySum doc := by
  unfold Coords.tableQualitySum
  refine List.sum_nonneg ?_
  intro x hx
  rcases List.mem_map.mp hx with ⟨t, _, rfl⟩
  exact table_quality_nonneg t

lemma tableQualitySum_le_count (doc : List Coords.Page) :
    Coords.tableQualitySum doc ≤ (Coords.tableCount doc : ℚ) := by
  unfold Coords.tableQualitySum Coords.tableCount
  have h := List.sum_le_card_nsmul
    ((Coords.allTables doc).map Coords.assess_table_quality) 1 ?_
  · simpa [List.length_map, nsmul_eq_mul, mul_one] using h
  · intro x hx
    rcases List.mem_map.mp hx with ⟨t, _, rfl⟩
    exact table_quality_le_one t

lemma avgTableQuality_nonneg (doc : List Coords.Page) :
    0 ≤ Coords.avgTableQuality doc := by
  unfold Coords.avgTableQuality
  have := tableQualitySum_nonneg doc
  positivity

lemma avgTableQuality_le_one (doc : List Coords.Page) (h : 0 < Coords.tableCount doc) :
    Coords.avgTableQuality doc ≤ 1 := by
  unfold Coords.avgTableQuality
  have hc : (0 : ℚ) < (Coords.tableCount doc : ℚ) := by exact_mod_cast h
  rw [div_le_one hc]
  exact tableQualitySum_le_count doc

/-- C8: per-table quality equals `fill_ratio * (0.7 + 0.3*min(1, rows*cols/10))`,
a zero-cell table scores 0, the formula is monotone in the fill ratio for
fixed dimensions and in `rows*cols` for fixed fill ratio, and the 2×2
scenario grid `[["A","B"],["","D"]]` scores `0.75 * 0.82 = 0.615`. -/
theorem C8_table_quality_formula :
    (∀ t : Coords.TableData, cellCount t.data ≠ 0 →
        Coords.assess_table_quality t =
          Coords.tableQualityFormula
            ((countNonEmpty t.data : ℚ) / (cellCount t.data : ℚ))
            (t.rows * t.cols)) ∧
    (∀ t : Coords.TableData, cellCount t.data = 0 →
        Coords.assess_table_quality t = 0) ∧
    (∀ (f₁ f₂ : ℚ) (c : ℕ), f₁ ≤ f₂ →
        Coords.tableQualityFormula f₁ c ≤ Coords.tableQualityFormula f₂ c) ∧
    (∀ (f : ℚ) (c₁ c₂ : ℕ), 0 ≤ f → c₁ ≤ c₂ →
        Coords.tableQualityFormula f c₁ ≤ Coords.tableQualityFormula f c₂) ∧
    Coords.assess_table_quality c8Example = 0.615 := by
  refine ⟨?_, ?_, ?_, ?_, by with_unfolding_all rfl⟩
  · intro t h
    unfold Coords.assess_table_quality Coords.tableQualityFormula
    have hne : ¬(t.data.isEmpty = true) := by
      intro hh
      apply h
      rw [List.isEmpty_iff.mp hh]
      rfl
    rw [if_neg hne, if_neg h]
  · intro t h
    unfold Coords.assess_table_quality
    by_cases hd : t.data.isEmpty = true
    · rw [if_pos hd]
    · rw [if_neg hd, if_pos h]
  · intro f₁ f₂ c h
    unfold Coords.tableQualityFormula
    have hfac : (0 : ℚ) ≤ 0.7 + 0.3 * min 1 ((c : ℚ) / 10) := by
      have : (0 : ℚ) ≤ min 1 ((c : ℚ) / 10) := le_min (by norm_num) (by positivity)
      nlinarith
    exact mul_le_mul_of_nonneg_right h hfac
  · intro f c₁ c₂ hf h
    unfold Coords.tableQualityFormula
    have hmin : min 1 ((c₁ : ℚ) / 10) ≤ min 1 ((c₂ : ℚ) / 10) := by
      apply min_le_min le_rfl
      have : (c₁ : ℚ) ≤ (c₂ : ℚ) := by exact_mod_cast h
      linarith
    nlinarith

theorem C8_table_quality_formula_witness :
    Coords.assess_table_quality c8Example =
      Coords.tableQualityFormula
        ((countNonEmpty c8Example.data : ℚ) / (cellCount c8Example.data : ℚ))
        (c8Example.rows * c8Example.cols) :=
  C8_table_quality_formula.1 c8Example (by decide)

/-- C1: the overall score is the weighted sum
`0.5*avg_table + 0.3*text + 0.2*structure` when at least one table was
accepted, is `0.6*text + 0.4*structure` (table weight removed from the
denominator) when no tables are present, and always lies in [0, 1]. -/
theorem C1_overall_aggregation (doc : List Coords.Page) :
    (0 < Coords.tableCount doc →
        Coords.assess_quality doc =
          0.5 * Coords.avgTableQuality doc + 0.3 * Coords.assess_text_quality doc +
            0.2 * Coords.assess_structure_quality doc) ∧
    (Coords.tableCount doc = 0 →
        Coords.assess_quality doc =
          0.6 * Coords.assess_text_quality doc +
            0.4 * Coords.assess_structure_quality doc) ∧
    0 ≤ Coords.assess_quality doc ∧ Coords.assess_quality doc ≤ 1 := by
  have htx0 := text_quality_nonneg doc
  have htx1 := text_quality_le_one doc
  have hs0 := structure_quality_nonneg doc
  have hs1 := structure_quality_le_one doc
  have heq1 : 0 < Coords.tableCount doc →
      Coords.assess_quality doc =
        0.5 * Coords.avgTableQuality doc + 0.3 * Coords.assess_text_quality doc +
          0.2 * Coords.assess_structure_quality doc := by
    intro h
    unfold Coords.assess_quality Coords.qualityTotalScore Coords.qualityWeightSum
    rw [if_pos h, if_pos h, if_pos (by norm_num : (0:ℚ) < 0.5 + 0.3 + 0.2)]
    rw [show (0.5 : ℚ) + 0.3 + 0.2 = 1 by norm_num, div_one]
    ring
  have heq2 : Coords.tableCount doc = 0 →
      Coords.assess_quality doc =
        0.6 * Coords.assess_text_quality doc +
          0.4 * Coords.assess_structure_quality doc := by
    intro h
    have h' : ¬ 0 < Coords.tableCount doc := by omega
    unfold Coords.assess_quality Coords.qualityTotalScore Coords.qualityWeightSum
    rw [if_neg h', if_neg h', if_pos (by norm_num : (0:ℚ) < 0 + 0.3 + 0.2)]
    field_simp
    ring
  refine ⟨heq1, heq2, ?_, ?_⟩
  · rcases Nat.eq_zero_or_pos (Coords.tableCount doc) with h | h
    · rw [heq2 h]
      nlinarith
    · rw [heq1 h]
      have ha0 := avgTableQuality_nonneg doc
      nlinarith
  · rcases Nat.eq_zero_or_pos (Coords.tableCount doc) with h | h
    · rw [heq2 h]
      nlinarith
    · rw [heq1 h]
      have ha0 := avgTableQuality_nonneg doc
      have ha1 := avgTableQuality_le_one doc h
      nlinarith

theorem C1_overall_aggregation_witness :
    Coords.assess_quality c1DocTables =
      0.5 * Coords.avgTableQuality c1DocTables +
        0.3 * Coords.assess_text_quality c1DocTables +
        0.2 * Coords.assess_structure_quality c1DocTables :=
  (C1_overall_aggregation c1DocTables).1 (by with_unfolding_all decide)

lemma countP_le_sum_map {α : Type} (p : α → Bool) (f : α → ℕ)
    (h : ∀ x, p x = true → 1 ≤ f x) (l : List α) :
    l.countP p ≤ (l.map f).sum := by
  induction l with
  | nil => simp
  | cons a t ih =>
    rw [List.countP_cons, List.map_cons, List.sum_cons]
    by_cases hp : p a = true
    · have := h a hp
      simp only [hp, if_true]
      omega
    · have hp' : p a = false := by simpa using hp
      simp only [hp']
      simp only [Bool.false_eq_true, if_false]
      omega

lemma meaningfulCount_le_totalChars (doc : List Coords.Page) :
    Coords.meaningfulCount doc ≤ Coords.totalContentChars doc := by
  unfold Coords.meaningfulCount Coords.totalContentChars
  apply List.sum_le_sum
  intro p _
  unfold Coords.meaningfulOnPage
  apply countP_le_sum_map
  intro e he
  simp only [decide_eq_true_eq] at he
  omega

/-- C2 counterexample: for the two-page document `c2Doc` (ten 3-character
elements on page one, page two empty) the code's text quality is 0.49 —
`0.6*min(1, 15/100) + 0.4*min(1, 10/(2*5))` — while the claimed formula
with the fraction of pages reaching 5 meaningful elements gives
`0.6*0.15 + 0.4*(1/2) = 0.29`; the claim's equation is false here. -/
theorem C2_text_quality_counterexample :
    Coords.assess_text_quality c2Doc = 49 / 100 ∧
      specTextQuality c2Doc = 29 / 100 ∧
      Coords.assess_text_quality c2Doc ≠ specTextQuality c2Doc :=
  ⟨by with_unfolding_all rfl, by with_unfolding_all rfl,
    by with_unfolding_all decide⟩

/-- C2 amended: the element-score term is `min(1, total meaningful
elements / (5 * pages))` — a document-wide count, not the fraction of
pages that individually reach 5 meaningful elements; with that reading
the text-quality formula holds for every document (the early zero
returns of the source coincide with the formula). -/
theorem C2_text_quality_amended (doc : List Coords.Page) :
    Coords.assess_text_quality doc =
      min 1 ((Coords.totalContentChars doc : ℚ) / (doc.length : ℚ) / 100) * 0.6 +
        min 1 ((Coords.meaningfulCount doc : ℚ) / ((doc.length : ℚ) * 5)) * 0.4 := by
  unfold Coords.assess_text_quality
  split_ifs with h1 h2
  · have hm : Coords.meaningfulCount doc = 0 := by
      have := meaningfulCount_le_totalChars doc
      omega
    rw [h1, hm]
    norm_num
  · exfalso
    apply h1
    rw [List.length_eq_zero.mp h2]
    rfl
  · rfl

/-- C4 counterexample: the 10-character page text `"- 123456 -"`,
roughly centred on a width-30 page, is recognised as a heading only by
the centred-short-text rule (the marker rule fails and the bracket rule
fails its `< 10` length bound), yet `get_heading_level` returns 3, not
the claimed 2, because the level function re-tests the bracket pattern
without the length bound. -/
theorem C4_heading_level_counterexample :
    Coords.is_heading "- 123456 -" c4Line 30 = true ∧
      "- 123456 -".startsWith "▢" = false ∧
      "- 123456 -".startsWith "■" = false ∧
      ¬("- 123456 -".startsWith "- " = true ∧ "- 123456 -".endsWith " -" = true ∧
          "- 123456 -".length < 10) ∧
      Coords.get_heading_level "- 123456 -" = 3 ∧
      (Coords.classify_line "- 123456 -" c4Line [] 30).level ≠ some 2 := by
  with_unfolding_all decide

/-- C4 amended: a non-empty line is classified a heading exactly when
one of the three rules fires (marker glyph; bracket pattern of length
< 10; length < 50 and roughly centred), and the level is 1 for marker
headings, 3 for any remaining heading whose text starts with `"- "` and
ends with `" -"` (no length bound at this point), and 2 otherwise; a
heading line's element carries that level. -/
theorem C4_heading_rules_amended (text : String) (line : Coords.Line)
    (allLines : List Coords.Line) (pw : ℚ) :
    (Coords.is_heading text line pw = true ↔
      ((text.startsWith "▢" = true ∨ text.startsWith "■" = true) ∨
        (text.startsWith "- " = true ∧ text.endsWith " -" = true ∧ text.length < 10) ∨
        (text.length < 50 ∧
          |(line.x_min + line.x_max) / 2 - (if pw = 0 then (300 : ℚ) else pw / 2)| < 50))) ∧
    ((text.startsWith "▢" = true ∨ text.startsWith "■" = true) →
        Coords.get_heading_level text = 1) ∧
    (¬(text.startsWith "▢" = true ∨ text.startsWith "■" = true) →
      (text.startsWith "- " = true ∧ text.endsWith " -" = true) →
        Coords.get_heading_level text = 3) ∧
    (¬(text.startsWith "▢" = true ∨ text.startsWith "■" = true) →
      ¬(text.startsWith "- " = true ∧ text.endsWith " -" = true) →
        Coords.get_heading_level text = 2) ∧
    (Coords.is_heading text line pw = true →
      (Coords.classify_line text line allLines pw).type = "heading" ∧
        (Coords.classify_line text line allLines pw).level =
          some (Coords.get_heading_level text)) := by
  refine ⟨?_, ?_, ?_, ?_, ?_⟩
  · unfold Coords.is_heading
    set pc : ℚ := if pw = 0 then (300 : ℚ) else pw / 2 with hpc
    split_ifs with h1 h2 h3
    · simp only [Bool.or_eq_true] at h1
      exact ⟨fun _ => Or.inl h1, fun _ => rfl⟩
    · simp only [Bool.and_eq_true, decide_eq_true_eq] at h2
      exact ⟨fun _ => Or.inr (Or.inl ⟨h2.1.1, h2.1.2, h2.2⟩), fun _ => rfl⟩
    · simp only [Bool.and_eq_true, decide_eq_true_eq] at h3
      exact ⟨fun _ => Or.inr (Or.inr h3), fun _ => rfl⟩
    · simp only [Bool.or_eq_true] at h1
      simp only [Bool.and_eq_true, decide_eq_true_eq] at h2 h3
      simp only [false_iff]
      push_neg
      refine ⟨?_, ?_, ?_⟩
      · tauto
      · intro ha hb
        by_contra hlen
        exact h2 ⟨⟨ha, hb⟩, by omega⟩
      · intro hlen
        by_contra hc
        exact h3 ⟨hlen, not_le.mp hc⟩
  · intro h
    unfold Coords.get_heading_level
    rw [if_pos (Bool.or_eq_true _ _ |>.mpr h)]
  · intro h1 h2
    unfold Coords.get_heading_level
    rw [if_neg (fun hh => h1 (Bool.or_eq_true _ _ |>.mp hh)),
      if_pos (Bool.and_eq_true _ _ |>.mpr h2)]
  · intro h1 h2
    unfold Coords.get_heading_level
    rw [if_neg (fun hh => h1 (Bool.or_eq_true _ _ |>.mp hh)),
      if_neg (fun hh => h2 (Bool.and_eq_true _ _ |>.mp hh))]
  · intro h
    unfold Coords.classify_line
    rw [if_pos h]
    exact ⟨rfl, rfl⟩

theorem C4_heading_rules_amended_witness :
    Coords.get_heading_level "■ Title" = 1 :=
  (C4_heading_rules_amended "■ Title" c4Line [] 30).2.1
    (by with_unfolding_all decide)

lemma bestStep_wins (acc : ℚ × List Grid) (gs : List Grid)
    (h : acc.1 < PdfExtract.stratScore gs) :
    PdfExtract.bestStep acc gs = (PdfExtract.stratScore gs, PdfExtract.validCands gs) := by
  unfold PdfExtract.bestStep
  rw [if_pos h]

lemma bestStep_keeps (acc : ℚ × List Grid) (gs : List Grid)
    (h : PdfExtract.stratScore gs ≤ acc.1) :
    PdfExtract.bestStep acc gs = acc := by
  unfold PdfExtract.bestStep
  rw [if_neg (not_lt.mpr h)]

lemma bestFold_keep (l : List (List Grid)) (acc : ℚ × List Grid)
    (h : ∀ gs ∈ l, PdfExtract.stratScore gs ≤ acc.1) :
    l.foldl PdfExtract.bestStep acc = acc := by
  induction l generalizing acc with
  | nil => rfl
  | cons a t ih =>
    rw [List.foldl_cons]
    rw [bestStep_keeps acc a (h a (by simp))]
    exact ih acc (fun gs hgs => h gs (by simp [hgs]))

lemma bestFold_lt (l : List (List Grid)) (acc : ℚ × List Grid) (s : ℚ)
    (hacc : acc.1 < s) (h : ∀ gs ∈ l, PdfExtract.stratScore gs < s) :
    (l.foldl PdfExtract.bestStep acc).1 < s := by
  induction l generalizing acc with
  | nil => exact hacc
  | cons a t ih =>
    rw [List.foldl_cons]
    apply ih
    · unfold PdfExtract.bestStep
      split_ifs
      · exact h a (by simp)
      · exact hacc
    · exact fun gs hgs => h gs (by simp [hgs])

/-- C3: in best-of mode each candidate scores `fill_ratio * total_cells`;
the selection fold keeps the entire candidate set of the strategy whose
summed score strictly exceeds every earlier strategy's and is at least
every later strategy's (so equal-scoring later strategies never
override); a run in which every strategy scores 0 keeps nothing; and
within the kept set exactly the candidates whose cleaned grid is
non-empty are emitted. -/
theorem C3_best_of_selection :
    (∀ g : Grid, PdfExtract.candScore g = PdfExtract.fill_ratio g * (PdfExtract.totalCells g : ℚ) ∧
      PdfExtract.fill_ratio g = (countNonEmpty g : ℚ) / (PdfExtract.totalCells g : ℚ)) ∧
    (∀ (pre post : List (List Grid)) (w : List Grid),
      (∀ p ∈ pre, PdfExtract.stratScore p < PdfExtract.stratScore w) →
      0 < PdfExtract.stratScore w →
      (∀ p ∈ post, PdfExtract.stratScore p ≤ PdfExtract.stratScore w) →
      PdfExtract.bestTables (pre ++ w :: post) =
        (PdfExtract.stratScore w, PdfExtract.validCands w)) ∧
    (∀ strats : List (List Grid),
      (∀ gs ∈ strats, PdfExtract.stratScore gs ≤ 0) →
      PdfExtract.bestTables strats = (0, [])) ∧
    (∀ strats : List (List Grid),
      PdfExtract.extract_tables strats =
        (((PdfExtract.bestTables strats).2).map PdfExtract.clean_table).filter
          (fun t => !t.isEmpty)) ∧
    (∀ (strats : List (List Grid)) (t : List (List String)),
      t ∈ PdfExtract.extract_tables strats → t ≠ []) ∧
    (∀ (strats : List (List Grid)) (g : Grid),
      g ∈ (PdfExtract.bestTables strats).2 → PdfExtract.clean_table g ≠ [] →
      PdfExtract.clean_table g ∈ PdfExtract.extract_tables strats) := by
  refine ⟨fun g => ⟨rfl, rfl⟩, ?_, ?_, fun strats => rfl, ?_, ?_⟩
  · intro pre post w hpre hw hpost
    unfold PdfExtract.bestTables
    rw [List.foldl_append, List.foldl_cons]
    have h1 : (pre.foldl PdfExtract.bestStep ((0 : ℚ), ([] : List Grid))).1 <
        PdfExtract.stratScore w :=
      bestFold_lt pre _ _ hw hpre
    rw [bestStep_wins _ w h1]
    exact bestFold_keep post _ (fun gs hgs => hpost gs hgs)
  · intro strats h
    exact bestFold_keep strats (0, []) h
  · intro strats t ht
    unfold PdfExtract.extract_tables at ht
    have := (List.mem_filter.mp ht).2
    simpa [List.isEmpty_iff] using this
  · intro strats g hg hclean
    unfold PdfExtract.extract_tables
    apply List.mem_filter.mpr
    refine ⟨List.mem_map_of_mem _ hg, ?_⟩
    simpa [List.isEmpty_iff] using hclean

theorem C3_best_of_selection_witness :
    PdfExtract.bestTables ([] ++ c3Strategy :: []) =
      (PdfExtract.stratScore c3Strategy, PdfExtract.validCands c3Strategy) :=
  C3_best_of_selection.2.1 [] [] c3Strategy (by simp)
    (by with_unfolding_all decide) (by simp)

lemma countNonEmpty_pos_not_nil {g : Grid} (h : 0 < countNonEmpty g) :
    g.isEmpty = false := by
  cases hd : g with
  | nil =>
    rw [hd] at h
    simp [countNonEmpty] at h
  | cons a t => rfl

lemma addTable_appends (acc : List Coords.TableData) (t : Coords.RawTable)
    (h : 0 < countNonEmpty t.data)
    (hsep : ∀ e ∈ acc, ¬(|e.x - t.x0| < 10 ∧ |e.y - t.y0| < 10)) :
    Coords.addTable acc t = acc ++ [Coords.mkTableData t] := by
  unfold Coords.addTable
  rw [if_neg (by simp [countNonEmpty_pos_not_nil h]), if_neg (by omega)]
  have hdup : Coords.isDup acc t = false := by
    unfold Coords.isDup
    rw [List.any_eq_false]
    intro e he
    simp only [Bool.and_eq_true, decide_eq_true_eq]
    exact fun hx => hsep e he hx
  rw [hdup]
  simp

lemma addTable_dup (acc : List Coords.TableData) (t : Coords.RawTable)
    (h : ∃ e ∈ acc, |e.x - t.x0| < 10 ∧ |e.y - t.y0| < 10) :
    Coords.addTable acc t = acc := by
  unfold Coords.addTable
  by_cases h1 : t.data.isEmpty = true
  · rw [if_pos h1]
  · rw [if_neg h1]
    by_cases h2 : countNonEmpty t.data = 0
    · rw [if_pos h2]
    · rw [if_neg h2]
      have hdup : Coords.isDup acc t = true := by
        unfold Coords.isDup
        rw [List.any_eq_true]
        rcases h with ⟨e, he, hx, hy⟩
        exact ⟨e, he, by simp [hx, hy]⟩
      rw [if_pos hdup]

lemma addTable_no_content (acc : List Coords.TableData) (t : Coords.RawTable)
    (h : countNonEmpty t.data = 0) :
    Coords.addTable acc t = acc := by
  unfold Coords.addTable
  by_cases h1 : t.data.isEmpty = true
  · rw [if_pos h1]
  · rw [if_neg h1, if_pos h]

lemma addTable_pairwise (acc : List Coords.TableData) (t : Coords.RawTable)
    (h : List.Pairwise tdSep acc) :
    List.Pairwise tdSep (Coords.addTable acc t) := by
  unfold Coords.addTable
  split_ifs with h1 h2 h3
  · exact h
  · exact h
  · exact h
  · rw [List.pairwise_append]
    refine ⟨h, List.pairwise_singleton _ _, ?_⟩
    intro a ha b hb
    rw [List.mem_singleton] at hb
    subst hb
    have h3' : Coords.isDup acc t = false := by simpa using h3
    unfold Coords.isDup at h3'
    rw [List.any_eq_false] at h3'
    have := h3' a ha
    simp only [Bool.and_eq_true, decide_eq_true_eq] at this
    simp only [tdSep, Coords.mkTableData]
    exact fun hx => this ⟨hx.1, hx.2⟩

lemma foldl_addTable_pairwise (ts : List Coords.RawTable)
    (acc : List Coords.TableData) (h : List.Pairwise tdSep acc) :
    List.Pairwise tdSep (ts.foldl Coords.addTable acc) := by
  induction ts generalizing acc with
  | nil => exact h
  | cons a rest ih =>
    rw [List.foldl_cons]
    exact ih _ (addTable_pairwise acc a h)

/-- C9: in union-with-dedup mode the accepted tables of a page are
pairwise separated (no two bbox top-left corners within 10 units on both
axes); one processing step accepts a candidate with at least one
non-empty cell exactly when no already-accepted table is within 10 units
on both axes (appending it and keeping earlier tables first), drops it
when such a table exists, and drops candidates with no non-empty cell. -/
theorem C9_union_dedup :
    (∀ strats : List (List Coords.RawTable),
      List.Pairwise tdSep (Coords.extract_tables_with_coords strats)) ∧
    (∀ (acc : List Coords.TableData) (t : Coords.RawTable),
      0 < countNonEmpty t.data →
      (∀ e ∈ acc, ¬(|e.x - t.x0| < 10 ∧ |e.y - t.y0| < 10)) →
      Coords.addTable acc t = acc ++ [Coords.mkTableData t]) ∧
    (∀ (acc : List Coords.TableData) (t : Coords.RawTable),
      (∃ e ∈ acc, |e.x - t.x0| < 10 ∧ |e.y - t.y0| < 10) →
      Coords.addTable acc t = acc) ∧
    (∀ (acc : List Coords.TableData) (t : Coords.RawTable),
      countNonEmpty t.data = 0 → Coords.addTable acc t = acc) := by
  refine ⟨?_, addTable_appends, addTable_dup, addTable_no_content⟩
  intro strats
  unfold Coords.extract_tables_with_coords
  have hgen : ∀ (l : List (List Coords.RawTable)) (acc : List Coords.TableData),
      List.Pairwise tdSep acc →
      List.Pairwise tdSep
        (l.foldl (fun acc ts => ts.foldl Coords.addTable acc) acc) := by
    intro l
    induction l with
    | nil => exact fun acc h => h
    | cons a rest ih =>
      intro acc h
      rw [List.foldl_cons]
      exact ih _ (foldl_addTable_pairwise a acc h)
  exact hgen strats [] List.Pairwise.nil

theorem C9_union_dedup_witness :
    Coords.addTable [] c9Raw = [] ++ [Coords.mkTableData c9Raw] :=
  C9_union_dedup.2.1 [] c9Raw (by with_unfolding_all decide) (by simp)

lemma addTable_content (acc : List Coords.TableData) (t : Coords.RawTable)
    (h : ∀ e ∈ acc, 0 < countNonEmpty e.data) :
    ∀ e ∈ Coords.addTable acc t, 0 < countNonEmpty e.data := by
  unfold Coords.addTable
  split_ifs with h1 h2 h3
  · exact h
  · exact h
  · exact h
  · intro e he
    rcases List.mem_append.mp he with he | he
    · exact h e he
    · rw [List.mem_singleton] at he
      subst he
      simp only [Coords.mkTableData]
      omega

lemma extract_coords_content (strats : List (List Coords.RawTable)) :
    ∀ t ∈ Coords.extract_tables_with_coords strats, 0 < countNonEmpty t.data := by
  unfold Coords.extract_tables_with_coords
  have hinner : ∀ (ts : List Coords.RawTable) (acc : List Coords.TableData),
      (∀ e ∈ acc, 0 < countNonEmpty e.data) →
      ∀ e ∈ ts.foldl Coords.addTable acc, 0 < countNonEmpty e.data := by
    intro ts
    induction ts with
    | nil => exact fun acc h => h
    | cons a rest ih =>
      intro acc h
      rw [List.foldl_cons]
      exact ih _ (addTable_content acc a h)
  have hgen : ∀ (l : List (List Coords.RawTable)) (acc : List Coords.TableData),
      (∀ e ∈ acc, 0 < countNonEmpty e.data) →
      ∀ e ∈ l.foldl (fun acc ts => ts.foldl Coords.addTable acc) acc,
        0 < countNonEmpty e.data := by
    intro l
    induction l with
    | nil => exact fun acc h => h
    | cons a rest ih =>
      intro acc h
      rw [List.foldl_cons]
      exact ih _ (hinner a acc h)
  exact hgen strats [] (by simp)

lemma clean_table_of_content {g : Grid} (h : 0 < countNonEmpty g) :
    PdfExtract.clean_table g ≠ [] := by
  have hrow : ∃ row ∈ g, row.countP cellNonEmpty ≠ 0 := by
    by_contra hc
    push_neg at hc
    have : countNonEmpty g = 0 := by
      unfold countNonEmpty
      apply List.sum_eq_zero
      intro x hx
      rcases List.mem_map.mp hx with ⟨row, hrow, rfl⟩
      exact hc row hrow
    omega
  rcases hrow with ⟨row, hrowg, hrow⟩
  have hcell : ∃ cell ∈ row, cellNonEmpty cell = true := by
    by_contra hc
    push_neg at hc
    exact hrow (List.countP_eq_zero.mpr (fun a ha => by simp [hc a ha]))
  rcases hcell with ⟨cell, hcellrow, hcell⟩
  apply List.ne_nil_of_mem (a := row.map PdfExtract.cleanCell)
  unfold PdfExtract.clean_table
  apply List.mem_filter.mpr
  refine ⟨List.mem_map_of_mem _ hrowg, ?_⟩
  rw [List.any_eq_true]
  refine ⟨PdfExtract.cleanCell cell, List.mem_map_of_mem _ hcellrow, ?_⟩
  rcases cell with _ | s
  · simp [cellNonEmpty] at hcell
  · simp only [cellNonEmpty] at hcell
    simp only [PdfExtract.cleanCell]
    simpa using hcell

/-- C6 counterexample: the ragged grid `[["A"],["B","C"]]` (row lengths 1
and 2) is accepted unchanged by the coordinate flow and, after cleaning,
by the best-of flow; neither flow rejects ragged extraction output, so
accepted tables are not always rectangular. -/
theorem C6_rectangularity_counterexample :
    Coords.extract_tables_with_coords [[c6Raw]] = [Coords.mkTableData c6Raw] ∧
      ¬ isRectangular (Coords.mkTableData c6Raw).data ∧
      PdfExtract.extract_tables [[c6Raw.data]] = [[["A"], ["B", "C"]]] ∧
      ¬ isRectangular ([["A"], ["B", "C"]] : List (List String)) :=
  ⟨by with_unfolding_all rfl, by with_unfolding_all decide,
   by with_unfolding_all rfl, by decide⟩

/-- C6 amended: rectangularity is not enforced anywhere, but the second
half of the claim holds — every table the coordinate flow accepts has at
least one non-empty cell, hence its grid does not clean to zero rows,
and every table the best-of flow emits is non-empty after cleaning. -/
theorem C6_cleaning_invariant :
    (∀ (strats : List (List Coords.RawTable)) (t : Coords.TableData),
      t ∈ Coords.extract_tables_with_coords strats →
      0 < countNonEmpty t.data ∧ PdfExtract.clean_table t.data ≠ []) ∧
    (∀ (strats : List (List Grid)) (t : List (List String)),
      t ∈ PdfExtract.extract_tables strats → t ≠ []) := by
  constructor
  · intro strats t ht
    have h := extract_coords_content strats t ht
    exact ⟨h, clean_table_of_content h⟩
  · intro strats t ht
    unfold PdfExtract.extract_tables at ht
    have := (List.mem_filter.mp ht).2
    simpa [List.isEmpty_iff] using this

theorem C6_cleaning_invariant_witness :
    0 < countNonEmpty (Coords.mkTableData c6Raw).data ∧
      PdfExtract.clean_table (Coords.mkTableData c6Raw).data ≠ [] :=
  C6_cleaning_invariant.1 [[c6Raw]] (Coords.mkTableData c6Raw)
    (by with_unfolding_all decide)

lemma groupAux_glyphs (gs : List Coords.Glyph) (cur : Coords.Line) :
    ((Coords.groupAux cur gs).map Coords.Line.chars).flatten = cur.chars ++ gs := by
  induction gs generalizing cur with
  | nil => simp [Coords.groupAux]
  | cons g rest ih =>
    unfold Coords.groupAux
    split_ifs with h
    · rw [List.map_cons, List.flatten_cons, ih (Coords.newLine g)]
      simp [Coords.newLine]
    · rw [ih (Coords.addTo cur g)]
      simp [Coords.addTo]

lemma newLine_inv (g : Coords.Glyph) : lineInv (Coords.newLine g) := by
  refine ⟨⟨g, [], rfl, rfl⟩, ?_⟩
  intro g' hg'
  have hgg : g' = g := by simpa [Coords.newLine] using hg'
  subst hgg
  rw [show (Coords.newLine g').y = g'.top from rfl]
  simp

lemma addTo_inv (l : Coords.Line) (g : Coords.Glyph) (h : lineInv l)
    (hg : |g.top - l.y| ≤ 2) : lineInv (Coords.addTo l g) := by
  rcases h with ⟨⟨g0, t, hchars, hy⟩, hmem⟩
  constructor
  · refine ⟨g0, t ++ [g], ?_, hy⟩
    rw [show (Coords.addTo l g).chars = l.chars ++ [g] from rfl, hchars]
    rfl
  · intro g' hg'
    rw [show (Coords.addTo l g).chars = l.chars ++ [g] from rfl] at hg'
    rw [show (Coords.addTo l g).y = l.y from rfl]
    rcases List.mem_append.mp hg' with hh | hh
    · exact hmem g' hh
    · rw [List.mem_singleton] at hh
      subst hh
      exact hg

lemma groupAux_inv (gs : List Coords.Glyph) (cur : Coords.Line) (h : lineInv cur) :
    ∀ l ∈ Coords.groupAux cur gs, lineInv l := by
  induction gs generalizing cur with
  | nil =>
    intro l hl
    rw [show Coords.groupAux cur [] = [cur] from rfl, List.mem_singleton] at hl
    subst hl
    exact h
  | cons g rest ih =>
    intro l hl
    unfold Coords.groupAux at hl
    split_ifs at hl with hcond
    · rcases List.mem_cons.mp hl with hl | hl
      · subst hl
        exact h
      · exact ih (Coords.newLine g) (newLine_inv g) l hl
    · exact ih (Coords.addTo cur g) (addTo_inv cur g h (by linarith [not_lt.mp hcond])) l hl

/-- C5: the grouper's output lines partition the input glyphs (their
concatenated members are a permutation of the input), every line's
anchor is the top coordinate of its first glyph, every member glyph is
within 2 units of its line's anchor, and empty input yields the empty
line list. -/
theorem C5_line_grouping (chars : List Coords.Glyph) :
    (((Coords.group_text_by_lines chars).map Coords.Line.chars).flatten).Perm chars ∧
    (∀ l ∈ Coords.group_text_by_lines chars,
      ∃ g0 t, l.chars = g0 :: t ∧ l.y = g0.top) ∧
    (∀ l ∈ Coords.group_text_by_lines chars, ∀ g ∈ l.chars, |g.top - l.y| ≤ 2) ∧
    Coords.group_text_by_lines [] = [] := by
  have hperm := List.perm_insertionSort Coords.keyLe chars
  rcases hs : List.insertionSort Coords.keyLe chars with _ | ⟨g, rest⟩
  · rw [hs] at hperm
    have hchars : chars = [] := hperm.symm.eq_nil
    subst hchars
    refine ⟨by simp [Coords.group_text_by_lines], ?_, ?_, rfl⟩
    · intro l hl
      simp [Coords.group_text_by_lines] at hl
    · intro l hl
      simp [Coords.group_text_by_lines] at hl
  · rw [hs] at hperm
    have hgroup : Coords.group_text_by_lines chars =
        Coords.groupAux (Coords.newLine g) rest := by
      unfold Coords.group_text_by_lines
      rw [hs]
    refine ⟨?_, ?_, ?_, rfl⟩
    · rw [hgroup, groupAux_glyphs]
      exact hperm
    · intro l hl
      rw [hgroup] at hl
      exact (groupAux_inv rest (Coords.newLine g) (newLine_inv g) l hl).1
    · intro l hl
      rw [hgroup] at hl
      exact (groupAux_inv rest (Coords.newLine g) (newLine_inv g) l hl).2

theorem C5_line_grouping_witness :
    (∃ g0 t, c5Line.chars = g0 :: t ∧ c5Line.y = g0.top) ∧
      |c5GlyphB.top - c5Line.y| ≤ 2 := by
  have hmem : c5Line ∈ Coords.group_text_by_lines c5Chars := by
    with_unfolding_all decide
  have hmem2 : c5GlyphB ∈ c5Line.chars := by with_unfolding_all decide
  exact ⟨(C5_line_grouping c5Chars).2.1 c5Line hmem,
    (C5_line_grouping c5Chars).2.2.1 c5Line hmem c5GlyphB hmem2⟩

lemma pyRound_abs (q : ℚ) : |(Coords.pyRound q : ℚ) - q| ≤ 1 / 2 := by
  unfold Coords.pyRound
  split_ifs with h1 h2
  · rw [abs_le]
    constructor <;> linarith
  · rw [abs_le]
    push_cast
    constructor <;> linarith
  · rw [abs_sub_comm]
    exact abs_sub_round q

lemma round_le_gap {a b : ℚ} (hr : Coords.pyRound a ≤ Coords.pyRound b)
    (hgap : 2 < |b - a|) : a + 2 < b := by
  rcases lt_abs.mp hgap with h | h
  · linarith
  · exfalso
    have h1 := abs_le.mp (pyRound_abs a)
    have h2 := abs_le.mp (pyRound_abs b)
    have hc : (Coords.pyRound a : ℚ) ≤ (Coords.pyRound b : ℚ) := by exact_mod_cast hr
    linarith

lemma groupAux_shape (gs : List Coords.Glyph) (cur : Coords.Line) :
    ∃ l t, Coords.groupAux cur gs = l :: t ∧ l.y = cur.y := by
  induction gs generalizing cur with
  | nil => exact ⟨cur, [], rfl, rfl⟩
  | cons g rest ih =>
    unfold Coords.groupAux
    split_ifs with h
    · exact ⟨cur, _, rfl, rfl⟩
    · rcases ih (Coords.addTo cur g) with ⟨l, t, heq, hy⟩
      exact ⟨l, t, heq, hy⟩

lemma groupAux_chain (gs : List Coords.Glyph) (cur : Coords.Line)
    (hcur : ∀ g ∈ gs, Coords.pyRound cur.y ≤ Coords.pyRound g.top)
    (hs : List.Pairwise
      (fun a b : Coords.Glyph => Coords.pyRound a.top ≤ Coords.pyRound b.top) gs) :
    List.Chain' lineGap (Coords.groupAux cur gs) := by
  induction gs generalizing cur with
  | nil => simp [Coords.groupAux]
  | cons g rest ih =>
    rcases List.pairwise_cons.mp hs with ⟨hg, hrest⟩
    unfold Coords.groupAux
    split_ifs with h
    · have hgap : cur.y + 2 < g.top := round_le_gap (hcur g (by simp)) h
      have hch := ih (Coords.newLine g)
        (fun g' hg' => hg g' hg') hrest
      rcases groupAux_shape rest (Coords.newLine g) with ⟨l, t, heq, hy⟩
      rw [heq] at hch ⊢
      exact List.chain'_cons.mpr ⟨by
        unfold lineGap
        rw [hy]
        exact hgap, hch⟩
    · exact ih (Coords.addTo cur g)
        (fun g' hg' => hcur g' (by simp [hg']))
        hrest

lemma group_lines_pairwise_gap (chars : List Coords.Glyph) :
    List.Pairwise (fun a b : Coords.Line => 2 < |a.y - b.y|)
      (Coords.group_text_by_lines chars) := by
  have hsorted : List.Pairwise
      (fun a b : Coords.Glyph => Coords.pyRound a.top ≤ Coords.pyRound b.top)
      (List.insertionSort Coords.keyLe chars) := by
    apply (List.sorted_insertionSort Coords.keyLe chars).imp
    intro a b hab
    rcases hab with h | ⟨h, _⟩
    · exact le_of_lt h
    · exact le_of_eq h
  rcases hs : List.insertionSort Coords.keyLe chars with _ | ⟨g, rest⟩
  · unfold Coords.group_text_by_lines
    rw [hs]
    exact List.Pairwise.nil
  · rw [hs] at hsorted
    rcases List.pairwise_cons.mp hsorted with ⟨hg, hrest⟩
    have hchain : List.Chain' lineGap (Coords.groupAux (Coords.newLine g) rest) :=
      groupAux_chain rest (Coords.newLine g) (fun g' hg' => hg g' hg') hrest
    have hpair : List.Pairwise lineGap (Coords.groupAux (Coords.newLine g) rest) :=
      List.chain'_iff_pairwise.mp hchain
    have hgroup : Coords.group_text_by_lines chars =
        Coords.groupAux (Coords.newLine g) rest := by
      unfold Coords.group_text_by_lines
      rw [hs]
    rw [hgroup]
    apply hpair.imp
    intro a b hab
    unfold lineGap at hab
    rw [abs_sub_comm, abs_of_pos (by linarith)]
    linarith

lemma filter_close_length {lines : List Coords.Line} {l : Coords.Line}
    (hl : l ∈ lines)
    (hp : List.Pairwise (fun a b : Coords.Line => 2 < |a.y - b.y|) lines) :
    (lines.filter (fun l2 => decide (|l2.y - l.y| < 2))).length ≤ 1 := by
  induction lines with
  | nil => simp
  | cons x rest ih =>
    rcases List.pairwise_cons.mp hp with ⟨hx, hrest⟩
    rcases List.mem_cons.mp hl with hlx | hlr
    · subst hlx
      rw [List.filter_cons_of_pos (by simp)]
      have hnil : rest.filter (fun l2 => decide (|l2.y - l.y| < 2)) = [] := by
        apply List.filter_eq_nil_iff.mpr
        intro b hb
        simp only [decide_eq_true_eq]
        have hgap := hx b hb
        rw [abs_sub_comm] at hgap
        intro hcontra
        linarith
      rw [hnil]
      simp
    · have hqx : ¬(|x.y - l.y| < 2) := by
        have := hx l hlr
        intro hcontra
        linarith
      rw [List.filter_cons_of_neg (by simpa using hqx)]
      exact ih hlr hrest

lemma is_table_row_false {lines : List Coords.Line} {l : Coords.Line}
    (hl : l ∈ lines)
    (hp : List.Pairwise (fun a b : Coords.Line => 2 < |a.y - b.y|) lines) :
    Coords.is_table_row l lines = false := by
  unfold Coords.is_table_row
  rw [decide_eq_false_iff_not]
  have := filter_close_length hl hp
  omega

/-- C10: any two distinct lines the grouper produces have anchors more
than 2 units apart (sorted rounded tops force every freshly opened line
strictly above the 2-unit band of each earlier anchor), while
`is_table_row` demands another line strictly within 2 units — so the
coordinate-based classifier never emits a `table_row` element. -/
theorem C10_no_table_row (chars : List Coords.Glyph) (pw : ℚ) :
    List.Pairwise (fun a b : Coords.Line => 2 < |a.y - b.y|)
      (Coords.group_text_by_lines chars) ∧
    ∀ e ∈ Coords.detect_structure (Coords.group_text_by_lines chars) pw,
      e.type ≠ "table_row" := by
  have hp := group_lines_pairwise_gap chars
  refine ⟨hp, ?_⟩
  intro e he
  unfold Coords.detect_structure at he
  rw [List.mem_filterMap] at he
  rcases he with ⟨l, hl, hsome⟩
  by_cases htext : l.text.trim = ""
  · rw [if_pos htext] at hsome
    exact absurd hsome (by simp)
  · rw [if_neg htext] at hsome
    have he : e = Coords.classify_line l.text.trim l (Coords.group_text_by_lines chars) pw :=
      (Option.some_injective _ hsome).symm
    subst he
    unfold Coords.classify_line
    split_ifs with h1 h2 h3
    · simp
    · simp
    · rw [is_table_row_false hl hp] at h3
      simp at h3
    · simp

theorem C10_no_table_row_witness :
    (Coords.detect_structure (Coords.group_text_by_lines c5Chars) 600 = [c10Elem]) ∧
      c10Elem.type ≠ "table_row" :=
  ⟨by with_unfolding_all rfl,
    (C10_no_table_row c5Chars 600).2 c10Elem (by with_unfolding_all decide)⟩

lemma isPrefixOf_append_self (p t : List Char) : p.isPrefixOf (p ++ t) = true := by
  induction p with
  | nil => simp [List.isPrefixOf]
  | cons a rest ih =>
    rw [List.cons_append]
    simp [List.isPrefixOf, ih]

lemma containsSeq_nil_pat (t : List Char) : Coords.containsSeq [] t = true := by
  cases t with
  | nil => simp [Coords.containsSeq]
  | cons c r => simp [Coords.containsSeq]

lemma containsSeq_append_self (p t : List Char) :
    Coords.containsSeq p (p ++ t) = true := by
  cases p with
  | nil => exact containsSeq_nil_pat t
  | cons a rest =>
    rw [List.cons_append]
    unfold Coords.containsSeq
    rw [show (a :: (rest ++ t)) = ((a :: rest) ++ t) from rfl,
      isPrefixOf_append_self (a :: rest) t]
    simp

lemma contains_qmsg (s m : ℚ) :
    Coords.containsQualityTooLow (Coords.qualityErrorMsg s m) = true := by
  unfold Coords.containsQualityTooLow Coords.qualityErrorMsg
  rw [String.data_append, String.data_append, String.data_append, String.data_append]
  rw [List.map_append, List.map_append, List.map_append, List.map_append]
  rw [show "Quality too low: ".data.map Char.toLower =
      "quality too low".data ++ ": ".data from by with_unfolding_all rfl]
  simp only [List.append_assoc]
  exact containsSeq_append_self _ _

lemma extract_strict_low (doc : List Coords.Page) (minq : ℚ)
    (h : Coords.assess_quality doc < minq) :
    Coords.extract minq true (Except.ok doc) =
      { success := false,
        error := some (Coords.qualityErrorMsg (Coords.assess_quality doc) minq),
        quality := some (Coords.assess_quality doc), warnings := [],
        errors := [Coords.qualityErrorMsg (Coords.assess_quality doc) minq] } := by
  simp only [Coords.extract]
  rw [if_pos h]
  rfl

lemma extract_lenient_low (doc : List Coords.Page) (minq : ℚ)
    (h : Coords.assess_quality doc < minq) :
    Coords.extract minq false (Except.ok doc) =
      { success := true, error := none,
        quality := some (Coords.assess_quality doc),
        warnings := [Coords.qualityErrorMsg (Coords.assess_quality doc) minq],
        errors := [] } := by
  simp only [Coords.extract]
  rw [if_pos h]
  rfl

lemma extract_ok_high (doc : List Coords.Page) (minq : ℚ) (strict : Bool)
    (h : ¬ Coords.assess_quality doc < minq) :
    Coords.extract minq strict (Except.ok doc) =
      { success := true, error := none,
        quality := some (Coords.assess_quality doc),
        warnings := [], errors := [] } := by
  simp only [Coords.extract]
  rw [if_neg h]

lemma exit_strict_low (doc : List Coords.Page) (minq : ℚ)
    (h : Coords.assess_quality doc < minq) :
    Coords.main_exit_code true minq false (Except.ok doc) = 3 := by
  simp only [Coords.main_exit_code, Bool.false_eq_true, if_false]
  rw [extract_strict_low doc minq h]
  simp [contains_qmsg]

lemma exit_lenient_low (doc : List Coords.Page) (minq : ℚ)
    (h : Coords.assess_quality doc < minq) :
    Coords.main_exit_code false minq false (Except.ok doc) = 2 := by
  simp only [Coords.main_exit_code, Bool.false_eq_true, if_false]
  rw [extract_lenient_low doc minq h]
  simp [h]

lemma exit_fault (strict : Bool) (minq : ℚ) (ignore : Bool) (m : String)
    (h : Coords.containsQualityTooLow m = false) :
    Coords.main_exit_code strict minq ignore (Except.error m) = 1 := by
  simp only [Coords.main_exit_code, Coords.extract]
  simp [h]

lemma exit_high (doc : List Coords.Page) (minq : ℚ) (strict : Bool)
    (h : ¬ Coords.assess_quality doc < minq) :
    Coords.main_exit_code strict minq false (Except.ok doc) = 0 := by
  simp only [Coords.main_exit_code, Bool.false_eq_true, if_false]
  rw [extract_ok_high doc minq strict h]
  simp [h]

/-- C7 counterexample: a parse failure whose external exception message
itself contains "quality too low" (case-insensitively) — here
`"Quality too low: parse glitch"` raised before any quality was computed
(`quality = none`) — exits with code 3, not the claimed 1, because
`main` classifies failures by substring-matching the error message. -/
theorem C7_exit_code_counterexample :
    (Coords.extract (1 / 5) false
      (Except.error "Quality too low: parse glitch")).success = false ∧
    (Coords.extract (1 / 5) false
      (Except.error "Quality too low: parse glitch")).quality = none ∧
    Coords.main_exit_code false (1 / 5) false
      (Except.error "Quality too low: parse glitch") = 3 ∧
    Coords.main_exit_code false (1 / 5) false
      (Except.error "Quality too low: parse glitch") ≠ 1 := by
  with_unfolding_all decide

/-- C7 amended: below threshold in strict mode the result is marked
failed with the quality message and the process exits 3; below threshold
in lenient mode only a warning is recorded, the result stays successful
and the process exits 2; a parse failure exits 1 provided its message
does not itself contain "quality too low" (case-insensitively), in which
case it exits 3; and an extraction at or above threshold stays
successful and exits 0 (quality flags not ignored throughout). -/
theorem C7_quality_gate_exit_codes :
    (∀ (doc : List Coords.Page) (minq : ℚ), Coords.assess_quality doc < minq →
      (Coords.extract minq true (Except.ok doc)).success = false ∧
      (Coords.extract minq true (Except.ok doc)).error =
        some (Coords.qualityErrorMsg (Coords.assess_quality doc) minq) ∧
      (Coords.extract minq true (Except.ok doc)).errors =
        [Coords.qualityErrorMsg (Coords.assess_quality doc) minq] ∧
      Coords.main_exit_code true minq false (Except.ok doc) = 3) ∧
    (∀ (doc : List Coords.Page) (minq : ℚ), Coords.assess_quality doc < minq →
      (Coords.extract minq false (Except.ok doc)).success = true ∧
      (Coords.extract minq false (Except.ok doc)).warnings =
        [Coords.qualityErrorMsg (Coords.assess_quality doc) minq] ∧
      Coords.main_exit_code false minq false (Except.ok doc) = 2) ∧
    (∀ (strict : Bool) (minq : ℚ) (ignore : Bool) (m : String),
      Coords.containsQualityTooLow m = false →
      (Coords.extract minq strict (Except.error m)).success = false ∧
      Coords.main_exit_code strict minq ignore (Except.error m) = 1) ∧
    (∀ (doc : List Coords.Page) (minq : ℚ) (strict : Bool),
      minq ≤ Coords.assess_quality doc →
      (Coords.extract minq strict (Except.ok doc)).success = true ∧
      Coords.main_exit_code strict minq false (Except.ok doc) = 0) := by
  refine ⟨?_, ?_, ?_, ?_⟩
  · intro doc minq h
    rw [extract_strict_low doc minq h]
    exact ⟨rfl, rfl, rfl, exit_strict_low doc minq h⟩
  · intro doc minq h
    rw [extract_lenient_low doc minq h]
    exact ⟨rfl, rfl, exit_lenient_low doc minq h⟩
  · intro strict minq ignore m h
    refine ⟨rfl, exit_fault strict minq ignore m h⟩
  · intro doc minq strict h
    rw [extract_ok_high doc minq strict (not_lt.mpr h)]
    exact ⟨rfl, exit_high doc minq strict (not_lt.mpr h)⟩

theorem C7_quality_gate_exit_codes_witness :
    (Coords.extract (1 / 5) true (Except.ok ([] : List Coords.Page))).success = false ∧
    (Coords.extract (1 / 5) true (Except.ok ([] : List Coords.Page))).error =
      some (Coords.qualityErrorMsg (Coords.assess_quality []) (1 / 5)) ∧
    (Coords.extract (1 / 5) true (Except.ok ([] : List Coords.Page))).errors =
      [Coords.qualityErrorMsg (Coords.assess_quality []) (1 / 5)] ∧
    Coords.main_exit_code true (1 / 5) false (Except.ok ([] : List Coords.Page)) = 3 :=
  C7_quality_gate_exit_codes.1 [] (1 / 5) (by with_unfolding_all decide)
